import Mathlib

/-!
Verification of the MFEM kernels-backend geometry cache and the
partial-assembly domain-kernel layer.

The embedding follows the C++ sources:
* `src/unnamed/part_000` — `KernelsGeometry` (the geometry cache):
  `ReorderByVDim`, `ReorderByNodes`, the two `Get` overloads and the
  gather loop.
* `src/unnamed/part_001` — the partial-assembly templates:
  `MeshJac`, `Equation`, `HostMassEq`, `QuadTensorFunc`, `DomainKernel`.

Flat C arrays are embedded as functions `ℕ → α`; the scalar type `α` is
kept generic (a `Field`/`CommRing` idealizes double arithmetic), so that
all definitions stay executable and can be evaluated at `α := ℚ`.
Functions of this repository that are only called from the sources above
but whose bodies are not part of the excerpt (`rIniGeom`,
`rNodeCopyByVDim`, `det`, `SetCurvature`, `GeomNeedsUpdate`, the host
domain kernels) are modelled from the specification and marked as such
in their doc comments.
-/

namespace MfemKernels

variable {α : Type*}

/-- A nodal grid function bundled with the attributes of its finite
element space that the kernels backend reads (part_000 lines 84-97 and
156-159): the coordinate buffer, `GetVDim`, `GetNDofs`, `GetFE(0)`'s
dimension and dof count, `GetNE`, the ordering flag and the
element-to-dof connectivity table `GetElementToDofTable().GetJ()`. -/
structure GridFunction (α : Type*) where
  data : ℕ → α
  vdim : ℕ
  ndofs : ℕ
  dims : ℕ
  numDofs : ℕ
  elements : ℕ
  orderedByNODES : Bool
  elementMap : ℕ → ℕ

/-- Buffer-level transpose of `KernelsGeometry::ReorderByVDim`
(part_000 lines 153-174).  The source writes `temp[k++] = data[d+v*ndofs]`
with `d` the outer loop over `ndofs` and `v` the inner loop over `vdim`,
so `k = v + vdim*d`, i.e. `d = k / vdim` and `v = k % vdim`; it then
copies `temp` back over the first `size = ndofs*vdim` entries of `data`. -/
def reorderByVDimData (ndofs vdim : ℕ) (data : ℕ → α) : ℕ → α :=
  fun k => if k < ndofs * vdim then data (k / vdim + (k % vdim) * ndofs) else data k

/-- Buffer-level transpose of `KernelsGeometry::ReorderByNodes`
(part_000 lines 177-198).  The source writes `temp[j+i*ndofs] = data[k++]`
with `j` the outer loop over `ndofs` and `i` the inner loop over `vdim`,
so `k = i + vdim*j`; for an output index `m = j + i*ndofs` this reads
`data[m / ndofs + vdim * (m % ndofs)]`; `temp` is then copied back over
the first `size = ndofs*vdim` entries of `data`. -/
def reorderByNodesData (ndofs vdim : ℕ) (data : ℕ → α) : ℕ → α :=
  fun m => if m < ndofs * vdim then data (m / ndofs + vdim * (m % ndofs)) else data m

/-- `KernelsGeometry::ReorderByVDim(GridFunction&)` acting on a grid
function: permutes the buffer in place, all space attributes unchanged. -/
def ReorderByVDim (nodes : GridFunction α) : GridFunction α :=
  { nodes with data := reorderByVDimData nodes.ndofs nodes.vdim nodes.data }

/-- `KernelsGeometry::ReorderByNodes(GridFunction&)` acting on a grid
function: permutes the buffer in place, all space attributes unchanged. -/
def ReorderByNodes (nodes : GridFunction α) : GridFunction α :=
  { nodes with data := reorderByNodesData nodes.ndofs nodes.vdim nodes.data }

lemma reorderByNodesData_reorderByVDimData (ndofs vdim : ℕ) (data : ℕ → α) :
    reorderByNodesData ndofs vdim (reorderByVDimData ndofs vdim data) = data := by
  funext m
  simp only [reorderByNodesData, reorderByVDimData]
  by_cases hm : m < ndofs * vdim
  · have hnd : 0 < ndofs := by
      rcases Nat.eq_zero_or_pos ndofs with h | h
      · subst h; simp at hm
      · exact h
    have hvd : 0 < vdim := by
      rcases Nat.eq_zero_or_pos vdim with h | h
      · subst h; simp at hm
      · exact h
    have hdiv : m / ndofs < vdim :=
      (Nat.div_lt_iff_lt_mul hnd).mpr (by rw [mul_comm vdim ndofs]; exact hm)
    have hmod : m % ndofs < ndofs := Nat.mod_lt _ hnd
    have hp : m / ndofs + vdim * (m % ndofs) < ndofs * vdim := by
      calc m / ndofs + vdim * (m % ndofs) < vdim + vdim * (m % ndofs) := by omega
        _ = vdim * (m % ndofs + 1) := by ring
        _ ≤ vdim * ndofs := Nat.mul_le_mul_left _ (by omega)
        _ = ndofs * vdim := mul_comm _ _
    rw [if_pos hm, if_pos hp]
    have h1 : (m / ndofs + vdim * (m % ndofs)) / vdim = m % ndofs := by
      rw [Nat.add_mul_div_left _ _ hvd, Nat.div_eq_of_lt hdiv, Nat.zero_add]
    have h2 : (m / ndofs + vdim * (m % ndofs)) % vdim = m / ndofs := by
      rw [Nat.add_mul_mod_self_left, Nat.mod_eq_of_lt hdiv]
    rw [h1, h2, Nat.mod_add_div' m ndofs]
  · rw [if_neg hm, if_neg hm]

lemma reorderByVDimData_reorderByNodesData (ndofs vdim : ℕ) (data : ℕ → α) :
    reorderByVDimData ndofs vdim (reorderByNodesData ndofs vdim data) = data := by
  funext k
  simp only [reorderByNodesData, reorderByVDimData]
  by_cases hk : k < ndofs * vdim
  · have hnd : 0 < ndofs := by
      rcases Nat.eq_zero_or_pos ndofs with h | h
      · subst h; simp at hk
      · exact h
    have hvd : 0 < vdim := by
      rcases Nat.eq_zero_or_pos vdim with h | h
      · subst h; simp at hk
      · exact h
    have hdiv : k / vdim < ndofs := (Nat.div_lt_iff_lt_mul hvd).mpr hk
    have hmod : k % vdim < vdim := Nat.mod_lt _ hvd
    have hq : k / vdim + k % vdim * ndofs < ndofs * vdim := by
      calc k / vdim + k % vdim * ndofs < ndofs + k % vdim * ndofs := by omega
        _ = (k % vdim + 1) * ndofs := by ring
        _ ≤ vdim * ndofs := Nat.mul_le_mul_right _ (by omega)
        _ = ndofs * vdim := mul_comm _ _
    rw [if_pos hk, if_pos hq]
    have h1 : (k / vdim + k % vdim * ndofs) / ndofs = k % vdim := by
      rw [Nat.add_mul_div_right _ _ hnd, Nat.div_eq_of_lt hdiv, Nat.zero_add]
    have h2 : (k / vdim + k % vdim * ndofs) % ndofs = k / vdim := by
      rw [Nat.add_mul_mod_self_right, Nat.mod_eq_of_lt hdiv]
    rw [h1, h2, Nat.mod_add_div k vdim]
  · rw [if_neg hk, if_neg hk]

lemma ReorderByNodes_ReorderByVDim (nodes : GridFunction α) :
    ReorderByNodes (ReorderByVDim nodes) = nodes := by
  simp only [ReorderByNodes, ReorderByVDim, reorderByNodesData_reorderByVDimData]

lemma ReorderByVDim_ReorderByNodes (nodes : GridFunction α) :
    ReorderByVDim (ReorderByNodes nodes) = nodes := by
  simp only [ReorderByVDim, ReorderByNodes, reorderByVDimData_reorderByNodesData]

/-- Modelled from the spec (§4.3): the closed-form determinant used by the
geometry-factor kernel for `dim ∈ {1,2,3}` ("direct cofactor expansion",
no LU); the kernel body (`rIniGeom`, `tensor.hpp`'s `det`) is not part of
the source excerpt.  A matrix is a curried entry function. -/
def detN [CommRing α] (d : ℕ) (M : ℕ → ℕ → α) : α :=
  match d with
  | 1 => M 0 0
  | 2 => M 0 0 * M 1 1 - M 0 1 * M 1 0
  | 3 =>
    M 0 0 * (M 1 1 * M 2 2 - M 1 2 * M 2 1)
      - M 0 1 * (M 1 0 * M 2 2 - M 1 2 * M 2 0)
      + M 0 2 * (M 1 0 * M 2 1 - M 1 1 * M 2 0)
  | _ => 0

/-- Modelled from the spec (§4.3): the adjugate entries used by the
closed-form pointwise inverse for `dim ∈ {1,2,3}`. -/
def adjN [CommRing α] (d : ℕ) (M : ℕ → ℕ → α) : ℕ → ℕ → α :=
  match d with
  | 1 => fun i j => if i = 0 ∧ j = 0 then 1 else 0
  | 2 => fun i j =>
    match i, j with
    | 0, 0 => M 1 1
    | 0, 1 => -M 0 1
    | 1, 0 => -M 1 0
    | 1, 1 => M 0 0
    | _, _ => 0
  | 3 => fun i j =>
    match i, j with
    | 0, 0 => M 1 1 * M 2 2 - M 1 2 * M 2 1
    | 0, 1 => -(M 0 1 * M 2 2 - M 0 2 * M 2 1)
    | 0, 2 => M 0 1 * M 1 2 - M 0 2 * M 1 1
    | 1, 0 => -(M 1 0 * M 2 2 - M 1 2 * M 2 0)
    | 1, 1 => M 0 0 * M 2 2 - M 0 2 * M 2 0
    | 1, 2 => -(M 0 0 * M 1 2 - M 0 2 * M 1 0)
    | 2, 0 => M 1 0 * M 2 1 - M 1 1 * M 2 0
    | 2, 1 => -(M 0 0 * M 2 1 - M 0 1 * M 2 0)
    | 2, 2 => M 0 0 * M 1 1 - M 0 1 * M 1 0
    | _, _ => 0
  | _ => fun _ _ => 0

/-- Modelled from the spec (§4.3): the closed-form pointwise matrix
inverse, `inverse = adjugate / determinant`, for `dim ∈ {1,2,3}`. -/
def invN [Field α] (d : ℕ) (M : ℕ → ℕ → α) : ℕ → ℕ → α :=
  fun i j => adjN d M i j / detN d M

/-- The basis-gradients-at-quadrature-points table
`KernelsDofQuadMaps::dofToQuadD` (external collaborator, spec §3 and
§4.3): indexed by (reference direction, local dof, quadrature point). -/
structure DofQuadMaps (α : Type*) where
  dofToQuadD : ℕ → ℕ → ℕ → α

/-- Modelled from the spec (§4.3): the Jacobian entry computed by the
geometry-factor kernel `rIniGeom` (whose body is not in the excerpt):
`J[i][j] = Σ_dof coord[i, dof, elem] · gradBasis[j, dof, quadpt]`, with
the per-element nodal coordinates in the dense gathered layout
`meshNodes[i + dims*(dof + numDofs*e)]`. -/
def rIniGeomJ [CommRing α] (dims numDofs : ℕ) (dofToQuadD : ℕ → ℕ → ℕ → α)
    (meshNodes : ℕ → α) (i j k e : ℕ) : α :=
  ∑ dof ∈ Finset.range numDofs,
    meshNodes (i + dims * (dof + numDofs * e)) * dofToQuadD j dof k

/-- Modelled from the spec (§4.3): the geometry-factor kernel `rIniGeom`
(called at part_000 lines 61-66 and 140-145; its body is not in the
excerpt).  Given the gathered per-element nodal coordinates and the
gradient table it produces the three output arrays: the Jacobian
`J i j k e`, its closed-form pointwise inverse `invJ i j k e`, and the
closed-form determinant `detJ k e`. -/
def rIniGeom [Field α] (dims numDofs : ℕ) (dofToQuadD : ℕ → ℕ → ℕ → α)
    (meshNodes : ℕ → α) :
    (ℕ → ℕ → ℕ → ℕ → α) × (ℕ → ℕ → ℕ → ℕ → α) × (ℕ → ℕ → α) :=
  (fun i j k e => rIniGeomJ dims numDofs dofToQuadD meshNodes i j k e,
   fun i j k e =>
     invN dims (fun a b => rIniGeomJ dims numDofs dofToQuadD meshNodes a b k e) i j,
   fun k e =>
     detN dims (fun a b => rIniGeomJ dims numDofs dofToQuadD meshNodes a b k e))

/-- The geometry cache entry `KernelsGeometry` (part_000): the gathered
per-element node coordinates, the element-to-dof map copy, and the three
geometric-factor arrays. -/
structure KernelsGeometry (α : Type*) where
  meshNodes : ℕ → α
  eMap : ℕ → ℕ
  J : ℕ → ℕ → ℕ → ℕ → α
  invJ : ℕ → ℕ → ℕ → ℕ → α
  detJ : ℕ → ℕ → α

/-- The mesh state read by `KernelsGeometry::Get`: the optional nodal
grid function (`mesh.GetNodes()`), the modification counter
(`mesh.GetSequence()`), and — collaborator data for the spec-modelled
`SetCurvature` upgrade — the order-1 nodal grid function the mesh would
gain from `SetCurvature(1, false, -1, Ordering::byVDIM)`. -/
structure MeshState (α : Type*) where
  nodes : Option (GridFunction α)
  sequence : ℕ
  linearNodes : GridFunction α

/-- Modelled from the spec (§4.1 error conditions): a mesh without a
coordinate grid function is upgraded in place by
`mesh.SetCurvature(1, false, -1, Ordering::byVDIM)` (part_000 line 82) —
it gains persistent order-1 node storage in by-vector-dimension
ordering. -/
def setCurvature1 (m : MeshState α) : GridFunction α :=
  { m.linearNodes with orderedByNODES := false }

/-- The grid function `Get` works with: the mesh's own nodes, or — when
the mesh has none — the nodes installed by the curvature upgrade
(part_000 lines 82-83). -/
def resolveNodes (m : MeshState α) : GridFunction α :=
  match m.nodes with
  | none => setCurvature1 m
  | some gf => gf

/-- The gather loop of the initializing `Get` (part_000 lines 100-114):
for the output offset `moffset = v + dims*lid` with `lid = d + numDofs*e`
it stores `nodes[xoffset]` with `xoffset = v + dims*gid` and
`gid = elementMap[lid]`; so `v = moffset % dims` and
`lid = moffset / dims`. -/
def gatherMeshNodes (dims : ℕ) (elementMap : ℕ → ℕ) (nodes : ℕ → α) : ℕ → α :=
  fun moffset => nodes (moffset % dims + dims * elementMap (moffset / dims))

/-- The process-wide mutable state surrounding `KernelsGeometry::Get`:
the static cache pointer `geom` (part_000 line 23, initialized to NULL),
the sequence counter recorded by the `config` singleton (spec §4.1 step
1; `config::GeomNeedsUpdate` is not in the excerpt and is modelled from
the spec), and the mesh. -/
structure KState (α : Type*) where
  geom : Option (KernelsGeometry α)
  recordedSeq : Option ℕ
  mesh : MeshState α

/-- The geometry-cache content computed by the initializing `Get`
(part_000 lines 92-147): transpose a by-node-ordered buffer to by-vdim,
gather the per-element coordinates and the dof map, and run the
geometry-factor kernel on the gathered coordinates. -/
def computeKernelsGeometry [Field α] (maps : DofQuadMaps α)
    (gf : GridFunction α) : KernelsGeometry α :=
  let nodesV : ℕ → α :=
    if gf.orderedByNODES then reorderByVDimData gf.ndofs gf.vdim gf.data else gf.data
  let meshNodes := gatherMeshNodes gf.dims gf.elementMap nodesV
  let R := rIniGeom gf.dims gf.numDofs maps.dofToQuadD meshNodes
  { meshNodes := meshNodes
    eMap := gf.elementMap
    J := R.1
    invJ := R.2.1
    detJ := R.2.2 }

/-- The state of the nodes grid function after the initializing `Get`
returns: a by-node-ordered buffer has been transposed to by-vdim for the
gather (part_000 line 92) and transposed back afterwards (line 129); a
by-vdim-ordered buffer is never touched. -/
def getNodesAfter (gf : GridFunction α) : GridFunction α :=
  if gf.orderedByNODES then ReorderByNodes (ReorderByVDim gf) else gf

/-- Result of one initializing `Get` call: the returned cache pointer,
the updated process state, and instrumentation recording which phases
executed: `allocated` mirrors the `geom_to_allocate` allocation branch
(part_000 lines 79-81, 117-121, 130-135), and `ranGather` /
`ranRIniGeom` record that the gather loop (lines 100-114) and the
`rIniGeom` call (line 140) executed — in the source both are
unconditional, on every path through the function. -/
structure GetResult (α : Type*) where
  geom : KernelsGeometry α
  state : KState α
  allocated : Bool
  ranGather : Bool
  ranRIniGeom : Bool

/-- The initializing-mode `KernelsGeometry::Get(fes, ir)` (part_000
lines 74-150).  Staleness is decided from the cache pointer and the
recorded sequence (line 79-80; `GeomNeedsUpdate` modelled from spec §4.1
step 1 as "recorded counter differs from the mesh counter", recording
the new counter); a nodeless mesh is upgraded via `SetCurvature`
(line 82); the gather, the cache assignment and the `rIniGeom` call are
unconditional; the nodes buffer is transposed back before return. -/
def kernelsGeometryGet [Field α] (maps : DofQuadMaps α) (s : KState α) :
    GetResult α :=
  let geomToAllocate : Bool :=
    s.geom.isNone || (s.recordedSeq != some s.mesh.sequence)
  let gf := resolveNodes s.mesh
  let g := computeKernelsGeometry maps gf
  { geom := g
    state :=
      { geom := some g
        recordedSeq := some s.mesh.sequence
        mesh := { s.mesh with nodes := some (getNodesAfter gf) } }
    allocated := geomToAllocate
    ranGather := true
    ranRIniGeom := true }

/-- Modelled from the spec (§4.1 vector mode, §9 open question):
`rNodeCopyByVDim` (called at part_000 line 58; its body is not in the
excerpt) gathers node positions from the externally supplied flattened
vector `Sx` through the cached global dof ids `eMap`, into the dense
per-element by-vdim layout. -/
def rNodeCopyByVDim (dims : ℕ) (eMap : ℕ → ℕ) (Sx : ℕ → α) : ℕ → α :=
  fun moffset => Sx (moffset % dims + dims * eMap (moffset / dims))

/-- The vector-mode `KernelsGeometry::Get(fes, ir, Sx)` (part_000 lines
42-70).  It reads `mesh->GetNodes()` (line 48; `none` models the crash
on a nodeless mesh) and then unconditionally dereferences the static
cache pointer `geom` (lines 58-66; `none` models the NULL dereference):
no staleness check, no allocation — `eMap` is read from the cache and
the outputs are written into the cached buffers. -/
def kernelsGeometryGetVec [Field α] (maps : DofQuadMaps α) (Sx : ℕ → α)
    (s : KState α) : Option (KernelsGeometry α) :=
  match s.mesh.nodes with
  | none => none
  | some gf =>
    match s.geom with
    | none => none
    | some g =>
      let meshNodes := rNodeCopyByVDim gf.dims g.eMap Sx
      let R := rIniGeom gf.dims gf.numDofs maps.dofToQuadD meshNodes
      some { meshNodes := meshNodes
             eMap := g.eMap
             J := R.1
             invJ := R.2.1
             detJ := R.2.2 }

lemma detN_one_ne [Field α] (M : ℕ → ℕ → α) (h : detN 1 M ≠ 0) :
    M 0 0 ≠ 0 := by simpa [detN] using h

lemma detN_two_ne [Field α] (M : ℕ → ℕ → α) (h : detN 2 M ≠ 0) :
    M 0 0 * M 1 1 - M 0 1 * M 1 0 ≠ 0 := by simpa [detN] using h

lemma detN_three_ne [Field α] (M : ℕ → ℕ → α) (h : detN 3 M ≠ 0) :
    M 0 0 * (M 1 1 * M 2 2 - M 1 2 * M 2 1)
      - M 0 1 * (M 1 0 * M 2 2 - M 1 2 * M 2 0)
      + M 0 2 * (M 1 0 * M 2 1 - M 1 1 * M 2 0) ≠ 0 := by simpa [detN] using h

/-- For `dim ∈ {1,2,3}` with a nonzero closed-form determinant, the
modelled matrix times its modelled inverse is the identity, entrywise. -/
lemma mul_invN_eq_id [Field α] (d : ℕ) (M : ℕ → ℕ → α)
    (hd : d = 1 ∨ d = 2 ∨ d = 3) (h : detN d M ≠ 0) (i j : ℕ)
    (hi : i < d) (hj : j < d) :
    ∑ l ∈ Finset.range d, M i l * invN d M l j = if i = j then 1 else 0 := by
  have he : detN d M * (detN d M)⁻¹ = 1 := mul_inv_cancel₀ h
  rcases hd with rfl | rfl | rfl
  · simp only [detN] at he
    interval_cases i
    interval_cases j
    simp only [Finset.sum_range_one, invN, adjN, detN, division_def, and_self,
      ite_true]
    linear_combination he
  · simp only [detN] at he
    interval_cases i <;> interval_cases j <;>
      · simp only [Finset.sum_range_succ, Finset.sum_range_zero, invN, adjN, detN,
          zero_add, division_def]
        first
        | (rw [if_neg (by decide)]; ring)
        | (rw [if_pos (by decide)]; linear_combination he)
  · simp only [detN] at he
    interval_cases i <;> interval_cases j <;>
      · simp only [Finset.sum_range_succ, Finset.sum_range_zero, invN, adjN, detN,
          zero_add, division_def]
        first
        | (rw [if_neg (by decide)]; ring)
        | (rw [if_pos (by decide)]; linear_combination he)

/-- For `dim ∈ {1,2,3}` with a nonzero closed-form determinant, the
determinant of the modelled inverse is the reciprocal determinant. -/
lemma detN_invN [Field α] (d : ℕ) (M : ℕ → ℕ → α)
    (hd : d = 1 ∨ d = 2 ∨ d = 3) (h : detN d M ≠ 0) :
    detN d (invN d M) = (detN d M)⁻¹ := by
  have he : detN d M * (detN d M)⁻¹ = 1 := mul_inv_cancel₀ h
  rcases hd with rfl | rfl | rfl
  · simp only [detN] at he
    simp only [invN, adjN, detN, division_def, and_self, ite_true]
    ring
  · simp only [detN] at he
    simp only [invN, adjN, detN, division_def]
    linear_combination (M 0 0 * M 1 1 - M 0 1 * M 1 0)⁻¹ * he
  · simp only [detN] at he
    simp only [invN, adjN, detN, division_def]
    linear_combination
      ((M 0 0 * (M 1 1 * M 2 2 - M 1 2 * M 2 1)
          - M 0 1 * (M 1 0 * M 2 2 - M 1 2 * M 2 0)
          + M 0 2 * (M 1 0 * M 2 1 - M 1 1 * M 2 0))⁻¹
        * ((M 0 0 * (M 1 1 * M 2 2 - M 1 2 * M 2 1)
          - M 0 1 * (M 1 0 * M 2 2 - M 1 2 * M 2 0)
          + M 0 2 * (M 1 0 * M 2 1 - M 1 1 * M 2 0))
          * (M 0 0 * (M 1 1 * M 2 2 - M 1 2 * M 2 1)
          - M 0 1 * (M 1 0 * M 2 2 - M 1 2 * M 2 0)
          + M 0 2 * (M 1 0 * M 2 1 - M 1 1 * M 2 0))⁻¹ + 1)) * he

/-- An integration point as read by the equations (part_001): only the
quadrature weight is consumed by the mass equation. -/
structure IntegrationPoint (α : Type*) where
  weight : α

/-- The `MeshJac<HostVector<double>, false, true>` accessor (part_001
lines 96-100): `operator()(e, k)` returns a `dim × dim` view at
`&J(0, 0, k, e)` of the tensor `J(dim, dim, quads, nbElts)` filled by
`EvalJacobians`. -/
def meshJacFullGet (J : ℕ → ℕ → ℕ → ℕ → α) (e k : ℕ) : ℕ → ℕ → α :=
  fun i j => J i j k e

/-- The constructor loop of `MeshJac<HostVector<double>, true, true>`
(part_001 lines 110-120): the stored tensor `J(dim, dim, nbElts)` keeps
one matrix per element, copied from quadrature point `0` of the full
per-quadrature-point computation: `locJ.setView(&J(0,0,i)) = Jac(i,0)`
for each `i < nbElts`. -/
def meshJacLinearJ (J : ℕ → ℕ → ℕ → ℕ → α) (nbElts : ℕ) :
    List (ℕ → ℕ → α) :=
  (List.range nbElts).map fun i => meshJacFullGet J i 0

/-- The `MeshJac<HostVector<double>, true, true>` accessor (part_001
lines 122-124): `operator()(e, k)` returns the view `&J(0, 0, e)` — the
quadrature index `k` is ignored. -/
def meshJacLinearGet [Zero α] (stored : List (ℕ → ℕ → α)) (e k : ℕ) :
    ℕ → ℕ → α :=
  stored.getD e fun _ _ => 0

/-- The attributes of `Equation<BtDB, HostVector<double>>` that
`QuadTensorFunc::evalD` and `HostMassEq::evalD` read (part_001 lines
156-171): `getDim`, `getNbQuads`, `getIntPoint` and `getJac`. -/
structure HostMassEq (α : Type*) where
  dim : ℕ
  nbQuads : ℕ
  intPoint : ℕ → IntegrationPoint α
  jac : ℕ → ℕ → ℕ → ℕ → α

/-- `HostMassEq::evalD` (part_001 lines 201-203):
`D_ek = ip.weight * det(J_ek)`.  The free function `det` on a
`Tensor<2>` is in `tensor.hpp`, outside the excerpt; it is modelled from
the spec as the closed-form determinant `detN` for the equation's
dimension. -/
def hostMassEqEvalD [CommRing α] (dim : ℕ) (ip : IntegrationPoint α)
    (J_ek : ℕ → ℕ → α) : α :=
  ip.weight * detN dim J_ek

/-- `QuadTensorFunc::evalD(e, D_e)` for the host mass equation (part_001
lines 231-241): for every quadrature point `k` of element `e`, slice the
per-element tensor at `k` and write
`eq->evalD(D_ek, dim, k, e, Tr, ip, J_ek)` with `J_ek = eq->getJac(e,k)`
and `ip = eq->getIntPoint(k)`. -/
def quadTensorFuncEvalD [CommRing α] (eq : HostMassEq α) (e : ℕ) : List α :=
  (List.range eq.nbQuads).map fun k =>
    hostMassEqEvalD eq.dim (eq.intPoint k) (meshJacFullGet eq.jac e k)

/-- Modelled from the spec (§4.4 general/simplex path): the direct dense
contraction realizing `y = Bᵀ D B x` for a mass-type (`BtDB`) operator —
`y[i] = Σ_k B[k,i] · D[k] · Σ_j B[k,j] · x[j]` — with `B` the
basis-values-at-quadrature-points map.  The host kernel bodies
(`hostdomainkernel.hpp`) are not part of the excerpt. -/
def hostDomainKernelMultGeneral [CommRing α] (nbDofs nbQuads : ℕ)
    (B : ℕ → ℕ → α) (D x : ℕ → α) : ℕ → α :=
  fun i =>
    ∑ k ∈ Finset.range nbQuads,
      B k i * (D k * ∑ j ∈ Finset.range nbDofs, B k j * x j)

/-- Modelled from the spec (§4.4 tensor-product fast path, on the 2-D
quadrilateral member of the tensor-product family): the separable
contraction applying a 1-D contraction along each of the two axes in
sequence.  Dofs are flattened as `i1 + nbDofs1d*i2` and quadrature
points as `k1 + nbQuads1d*k2`; `B1` is the 1-D basis-values map. -/
def hostDomainKernelMultTensor [CommRing α] (nbDofs1d nbQuads1d : ℕ)
    (B1 : ℕ → ℕ → α) (D x : ℕ → α) : ℕ → α :=
  fun idx =>
    ∑ k1 ∈ Finset.range nbQuads1d,
      B1 k1 (idx % nbDofs1d) *
        ∑ k2 ∈ Finset.range nbQuads1d,
          B1 k2 (idx / nbDofs1d) *
            (D (k1 + nbQuads1d * k2) *
              ∑ j2 ∈ Finset.range nbDofs1d,
                B1 k2 j2 *
                  ∑ j1 ∈ Finset.range nbDofs1d,
                    B1 k1 j1 * x (j1 + nbDofs1d * j2))

/-- `MultAdd` for the general path (spec §4.4): `y += A·x`. -/
def hostDomainKernelMultAddGeneral [CommRing α] (nbDofs nbQuads : ℕ)
    (B : ℕ → ℕ → α) (D x y : ℕ → α) : ℕ → α :=
  fun i => y i + hostDomainKernelMultGeneral nbDofs nbQuads B D x i

/-- `MultAdd` for the tensor-product path (spec §4.4): `y += A·x`. -/
def hostDomainKernelMultAddTensor [CommRing α] (nbDofs1d nbQuads1d : ℕ)
    (B1 : ℕ → ℕ → α) (D x y : ℕ → α) : ℕ → α :=
  fun idx => y idx + hostDomainKernelMultTensor nbDofs1d nbQuads1d B1 D x idx

/-- The separable 2-D basis table of a tensor-product (quadrilateral)
element (spec §4.4 and glossary): the basis at flattened quadrature
point `k1 + nbQuads1d*k2` and flattened dof `i1 + nbDofs1d*i2` factors
as the product of the 1-D basis values along each axis. -/
def sepBasis [CommRing α] (nbDofs1d nbQuads1d : ℕ) (B1 : ℕ → ℕ → α) : ℕ → ℕ → α :=
  fun k i => B1 (k % nbQuads1d) (i % nbDofs1d) * B1 (k / nbQuads1d) (i / nbDofs1d)

/-- Modelled from the spec (§4.4 tensor-product fast path, on the 3-D
hexahedral member of the tensor-product family): the separable
contraction applying a 1-D contraction along each of the three axes in
sequence.  Dofs are flattened as `i1 + nbDofs1d*(i2 + nbDofs1d*i3)` and
quadrature points as `k1 + nbQuads1d*(k2 + nbQuads1d*k3)`; `B1` is the
1-D basis-values map. -/
def hostDomainKernelMultTensor3D [CommRing α] (nbDofs1d nbQuads1d : ℕ)
    (B1 : ℕ → ℕ → α) (D x : ℕ → α) : ℕ → α :=
  fun idx =>
    ∑ k3 ∈ Finset.range nbQuads1d,
      B1 k3 (idx / nbDofs1d / nbDofs1d) *
        ∑ k2 ∈ Finset.range nbQuads1d,
          B1 k2 (idx / nbDofs1d % nbDofs1d) *
            ∑ k1 ∈ Finset.range nbQuads1d,
              B1 k1 (idx % nbDofs1d) *
                (D (k1 + nbQuads1d * (k2 + nbQuads1d * k3)) *
                  ∑ j3 ∈ Finset.range nbDofs1d,
                    B1 k3 j3 *
                      ∑ j2 ∈ Finset.range nbDofs1d,
                        B1 k2 j2 *
                          ∑ j1 ∈ Finset.range nbDofs1d,
                            B1 k1 j1 * x (j1 + nbDofs1d * (j2 + nbDofs1d * j3)))

/-- `MultAdd` for the 3-D (hexahedral) tensor-product path (spec §4.4):
`y += A·x`. -/
def hostDomainKernelMultAddTensor3D [CommRing α] (nbDofs1d nbQuads1d : ℕ)
    (B1 : ℕ → ℕ → α) (D x y : ℕ → α) : ℕ → α :=
  fun idx =>
    y idx + hostDomainKernelMultTensor3D nbDofs1d nbQuads1d B1 D x idx

/-- The separable 3-D basis table of a tensor-product (hexahedral)
element (spec §4.4 and glossary): the basis at flattened quadrature
point `k1 + nbQuads1d*(k2 + nbQuads1d*k3)` and flattened dof
`i1 + nbDofs1d*(i2 + nbDofs1d*i3)` factors as the product of the 1-D
basis values along the three axes. -/
def sepBasis3D [CommRing α] (nbDofs1d nbQuads1d : ℕ) (B1 : ℕ → ℕ → α) :
    ℕ → ℕ → α :=
  fun k i =>
    B1 (k % nbQuads1d) (i % nbDofs1d)
      * B1 (k / nbQuads1d % nbQuads1d) (i / nbDofs1d % nbDofs1d)
      * B1 (k / nbQuads1d / nbQuads1d) (i / nbDofs1d / nbDofs1d)

/-- Reindexing a sum over a flattened index range `m * n` as a double
sum, inner index fastest. -/
lemma sum_range_mul_split {M : Type*} [AddCommMonoid M] (m n : ℕ) (f : ℕ → M) :
    ∑ k ∈ Finset.range (m * n), f k
      = ∑ b ∈ Finset.range n, ∑ a ∈ Finset.range m, f (a + m * b) := by
  induction n with
  | zero => simp
  | succ n ih =>
    rw [Nat.mul_succ, Finset.sum_range_add, ih, Finset.sum_range_succ]
    congr 1
    exact Finset.sum_congr rfl fun a _ => by rw [Nat.add_comm (m * n) a]

/-- On a tensor-product (quadrilateral) element the fast-path sequence
of 1-D contractions agrees exactly with the general dense contraction
applied to the separable basis table, for every coefficient tensor and
every input vector. -/
lemma multTensor_eq_multGeneral [CommRing α] (nd nq : ℕ) (B1 : ℕ → ℕ → α)
    (D x : ℕ → α) (idx : ℕ) :
    hostDomainKernelMultTensor nd nq B1 D x idx
      = hostDomainKernelMultGeneral (nd * nd) (nq * nq) (sepBasis nd nq B1) D x idx := by
  simp only [hostDomainKernelMultTensor, hostDomainKernelMultGeneral]
  rw [sum_range_mul_split nq nq, Finset.sum_comm]
  refine Finset.sum_congr rfl fun k1 hk1 => ?_
  have hk1lt : k1 < nq := Finset.mem_range.mp hk1
  rw [Finset.mul_sum]
  refine Finset.sum_congr rfl fun k2 _ => ?_
  have hdec2 : ∀ i : ℕ,
      sepBasis nd nq B1 (k1 + nq * k2) i = B1 k1 (i % nd) * B1 k2 (i / nd) := by
    intro i
    simp only [sepBasis]
    rw [Nat.add_mul_mod_self_left, Nat.mod_eq_of_lt hk1lt,
      Nat.add_mul_div_left _ _ (by omega : 0 < nq), Nat.div_eq_of_lt hk1lt,
      Nat.zero_add]
  rw [hdec2 idx, sum_range_mul_split nd nd]
  have hx : ∀ j2 ∈ Finset.range nd, ∀ j1 ∈ Finset.range nd,
      sepBasis nd nq B1 (k1 + nq * k2) (j1 + nd * j2) * x (j1 + nd * j2)
        = B1 k1 j1 * B1 k2 j2 * x (j1 + nd * j2) := by
    intro j2 _ j1 hj1
    have hj1lt : j1 < nd := Finset.mem_range.mp hj1
    rw [hdec2, Nat.add_mul_mod_self_left, Nat.mod_eq_of_lt hj1lt,
      Nat.add_mul_div_left _ _ (by omega : 0 < nd), Nat.div_eq_of_lt hj1lt,
      Nat.zero_add]
  rw [Finset.sum_congr rfl fun j2 hj2 =>
    Finset.sum_congr rfl fun j1 hj1 => hx j2 hj2 j1 hj1]
  simp only [Finset.mul_sum]
  refine Finset.sum_congr rfl fun j2 _ => Finset.sum_congr rfl fun j1 _ => ?_
  ring

/-- On a tensor-product (hexahedral) element the fast-path sequence of
three 1-D contractions agrees exactly with the general dense contraction
applied to the separable 3-D basis table, for every coefficient tensor
and every input vector. -/
lemma multTensor3D_eq_multGeneral [CommRing α] (nd nq : ℕ) (B1 : ℕ → ℕ → α)
    (D x : ℕ → α) (idx : ℕ) :
    hostDomainKernelMultTensor3D nd nq B1 D x idx
      = hostDomainKernelMultGeneral (nd * (nd * nd)) (nq * (nq * nq))
          (sepBasis3D nd nq B1) D x idx := by
  simp only [hostDomainKernelMultTensor3D, hostDomainKernelMultGeneral]
  rw [sum_range_mul_split nq (nq * nq), sum_range_mul_split nq nq]
  refine Finset.sum_congr rfl fun k3 _ => ?_
  rw [Finset.mul_sum]
  refine Finset.sum_congr rfl fun k2 hk2 => ?_
  have hk2lt : k2 < nq := Finset.mem_range.mp hk2
  rw [Finset.mul_sum, Finset.mul_sum]
  refine Finset.sum_congr rfl fun k1 hk1 => ?_
  have hk1lt : k1 < nq := Finset.mem_range.mp hk1
  have hdec : ∀ i : ℕ,
      sepBasis3D nd nq B1 (k1 + nq * (k2 + nq * k3)) i
        = B1 k1 (i % nd) * B1 k2 (i / nd % nd) * B1 k3 (i / nd / nd) := by
    intro i
    have e1 : (k1 + nq * (k2 + nq * k3)) % nq = k1 := by
      rw [Nat.add_mul_mod_self_left, Nat.mod_eq_of_lt hk1lt]
    have e2 : (k1 + nq * (k2 + nq * k3)) / nq = k2 + nq * k3 := by
      rw [Nat.add_mul_div_left _ _ (by omega : 0 < nq),
        Nat.div_eq_of_lt hk1lt, Nat.zero_add]
    have e3 : (k2 + nq * k3) % nq = k2 := by
      rw [Nat.add_mul_mod_self_left, Nat.mod_eq_of_lt hk2lt]
    have e4 : (k2 + nq * k3) / nq = k3 := by
      rw [Nat.add_mul_div_left _ _ (by omega : 0 < nq),
        Nat.div_eq_of_lt hk2lt, Nat.zero_add]
    simp only [sepBasis3D, e1, e2, e3, e4]
  rw [hdec idx, sum_range_mul_split nd (nd * nd), sum_range_mul_split nd nd]
  have hx : ∀ j3 ∈ Finset.range nd, ∀ j2 ∈ Finset.range nd,
      ∀ j1 ∈ Finset.range nd,
      sepBasis3D nd nq B1 (k1 + nq * (k2 + nq * k3)) (j1 + nd * (j2 + nd * j3))
          * x (j1 + nd * (j2 + nd * j3))
        = B1 k1 j1 * B1 k2 j2 * B1 k3 j3 * x (j1 + nd * (j2 + nd * j3)) := by
    intro j3 _ j2 hj2 j1 hj1
    have hj1lt : j1 < nd := Finset.mem_range.mp hj1
    have hj2lt : j2 < nd := Finset.mem_range.mp hj2
    have f1 : (j1 + nd * (j2 + nd * j3)) % nd = j1 := by
      rw [Nat.add_mul_mod_self_left, Nat.mod_eq_of_lt hj1lt]
    have f2 : (j1 + nd * (j2 + nd * j3)) / nd = j2 + nd * j3 := by
      rw [Nat.add_mul_div_left _ _ (by omega : 0 < nd),
        Nat.div_eq_of_lt hj1lt, Nat.zero_add]
    have f3 : (j2 + nd * j3) % nd = j2 := by
      rw [Nat.add_mul_mod_self_left, Nat.mod_eq_of_lt hj2lt]
    have f4 : (j2 + nd * j3) / nd = j3 := by
      rw [Nat.add_mul_div_left _ _ (by omega : 0 < nd),
        Nat.div_eq_of_lt hj2lt, Nat.zero_add]
    rw [hdec, f1, f2, f3, f4]
  rw [Finset.sum_congr rfl fun j3 hj3 =>
    Finset.sum_congr rfl fun j2 hj2 =>
      Finset.sum_congr rfl fun j1 hj1 => hx j3 hj3 j2 hj2 j1 hj1]
  simp only [Finset.mul_sum]
  refine Finset.sum_congr rfl fun j3 _ =>
    Finset.sum_congr rfl fun j2 _ => Finset.sum_congr rfl fun j1 _ => ?_
  ring

lemma getNodesAfter_eq (gf : GridFunction α) : getNodesAfter gf = gf := by
  unfold getNodesAfter
  split
  · exact ReorderByNodes_ReorderByVDim gf
  · rfl

lemma resolveNodes_some (m : MeshState α) (gf : GridFunction α)
    (h : m.nodes = some gf) : resolveNodes m = gf := by
  simp [resolveNodes, h]

lemma resolveNodes_none (m : MeshState α) (h : m.nodes = none) :
    resolveNodes m = setCurvature1 m := by
  simp [resolveNodes, h]

lemma kernelsGeometryGet_geom [Field α] (maps : DofQuadMaps α) (s : KState α) :
    (kernelsGeometryGet maps s).geom
      = computeKernelsGeometry maps (resolveNodes s.mesh) := rfl

lemma kernelsGeometryGet_state_geom [Field α] (maps : DofQuadMaps α) (s : KState α) :
    (kernelsGeometryGet maps s).state.geom
      = some (kernelsGeometryGet maps s).geom := rfl

lemma kernelsGeometryGet_state_recordedSeq [Field α] (maps : DofQuadMaps α)
    (s : KState α) :
    (kernelsGeometryGet maps s).state.recordedSeq = some s.mesh.sequence := rfl

lemma kernelsGeometryGet_state_mesh_sequence [Field α] (maps : DofQuadMaps α)
    (s : KState α) :
    (kernelsGeometryGet maps s).state.mesh.sequence = s.mesh.sequence := rfl

lemma kernelsGeometryGet_state_mesh_nodes [Field α] (maps : DofQuadMaps α)
    (s : KState α) :
    (kernelsGeometryGet maps s).state.mesh.nodes
      = some (resolveNodes s.mesh) := by
  show some (getNodesAfter (resolveNodes s.mesh)) = some (resolveNodes s.mesh)
  rw [getNodesAfter_eq]

lemma kernelsGeometryGet_allocated [Field α] (maps : DofQuadMaps α) (s : KState α) :
    (kernelsGeometryGet maps s).allocated
      = (s.geom.isNone || (s.recordedSeq != some s.mesh.sequence)) := rfl

/-! Concrete sample objects over `ℚ`, used by the witnesses. -/

/-- A small by-node-ordered nodal grid function over `ℚ`. -/
def sampleGF : GridFunction ℚ where
  data := fun n => (n : ℚ) + 1
  vdim := 2
  ndofs := 3
  dims := 2
  numDofs := 2
  elements := 2
  orderedByNODES := true
  elementMap := fun lid => (lid + 1) % 3

/-- A sample mesh whose nodes are `sampleGF`. -/
def sampleMesh : MeshState ℚ where
  nodes := some sampleGF
  sequence := 5
  linearNodes := sampleGF

/-- A sample basis-gradient table. -/
def sampleMaps : DofQuadMaps ℚ where
  dofToQuadD := fun j dof k => if j = dof then (k : ℚ) + 1 else 0

/-- A cold process state: NULL cache pointer, nothing recorded. -/
def sampleState : KState ℚ where
  geom := none
  recordedSeq := none
  mesh := sampleMesh

/-- Claim C1: the reorder operations are mutually inverse involutions —
for every coordinate buffer of `ndofs * vdim` values viewed through a
grid function, `ReorderByNodes` after `ReorderByVDim` (and vice versa)
restores every element of the buffer exactly. -/
theorem c1_reorder_involution (gf : GridFunction α) :
    ReorderByNodes (ReorderByVDim gf) = gf
      ∧ ReorderByVDim (ReorderByNodes gf) = gf :=
  ⟨ReorderByNodes_ReorderByVDim gf, ReorderByVDim_ReorderByNodes gf⟩

/-- Claim C2: for every mesh whose nodal grid function is stored in
by-NODES ordering, the initializing-mode `KernelsGeometry::Get` leaves
the grid function identical to its state before the call, on every
return path (any cache state, hit or miss). -/
theorem c2_get_restores_bynodes_gridfunction [Field α] (maps : DofQuadMaps α)
    (s : KState α) (gf : GridFunction α) (hn : s.mesh.nodes = some gf)
    (ho : gf.orderedByNODES = true) :
    (kernelsGeometryGet maps s).state.mesh.nodes = some gf := by
  rw [kernelsGeometryGet_state_mesh_nodes, resolveNodes_some s.mesh gf hn]

/-- Witness for C2 at the concrete by-node-ordered sample state. -/
theorem c2_witness :
    (kernelsGeometryGet sampleMaps sampleState).state.mesh.nodes = some sampleGF :=
  c2_get_restores_bynodes_gridfunction sampleMaps sampleState sampleGF rfl rfl

/-- Claim C3 (amended): for two consecutive initializing-mode `Get`
calls with the mesh sequence unchanged in between, the second call
performs no reallocation (`geom_to_allocate` is false) and returns the
same cached buffers bit-identical to the first call's result — but it
does re-execute the gather loop and the geometry kernel, overwriting the
cache with identical values. -/
theorem c3_second_get_recomputes_into_same_cache [Field α]
    (maps : DofQuadMaps α) (s : KState α) :
    (kernelsGeometryGet maps (kernelsGeometryGet maps s).state).allocated = false
    ∧ (kernelsGeometryGet maps (kernelsGeometryGet maps s).state).geom
        = (kernelsGeometryGet maps s).geom
    ∧ (kernelsGeometryGet maps (kernelsGeometryGet maps s).state).state.geom
        = some (kernelsGeometryGet maps s).geom
    ∧ (kernelsGeometryGet maps (kernelsGeometryGet maps s).state).ranGather = true
    ∧ (kernelsGeometryGet maps (kernelsGeometryGet maps s).state).ranRIniGeom
        = true := by
  have hgeom :
      (kernelsGeometryGet maps (kernelsGeometryGet maps s).state).geom
        = (kernelsGeometryGet maps s).geom := by
    rw [kernelsGeometryGet_geom, kernelsGeometryGet_geom,
      resolveNodes_some _ _ (kernelsGeometryGet_state_mesh_nodes maps s)]
  refine ⟨?_, hgeom, ?_, rfl, rfl⟩
  · rw [kernelsGeometryGet_allocated, kernelsGeometryGet_state_geom,
      kernelsGeometryGet_state_recordedSeq, kernelsGeometryGet_state_mesh_sequence]
    simp
  · rw [kernelsGeometryGet_state_geom, hgeom]

/-- Counterexample to claim C3 as stated: at a concrete state whose
cache is warm and whose mesh sequence is unchanged, the second
initializing-mode `Get` is a cache hit (no reallocation) and still
re-executes the gather loop and the `rIniGeom` geometry kernel — the
claim asserts neither is re-executed. -/
theorem c3_counterexample :
    (kernelsGeometryGet sampleMaps
        (kernelsGeometryGet sampleMaps sampleState).state).allocated = false
    ∧ (kernelsGeometryGet sampleMaps
        (kernelsGeometryGet sampleMaps sampleState).state).ranGather = true
    ∧ (kernelsGeometryGet sampleMaps
        (kernelsGeometryGet sampleMaps sampleState).state).ranRIniGeom = true :=
  ⟨rfl, rfl, rfl⟩

/-- Claim C4: after an initializing-mode `Get`, for every in-range
element `e`, local dof `d` and component `v`, the cached `eMap` entry at
`d + numDofs*e` is the global dof id from the element-to-dof table, and
the cached `meshNodes` entry at `v + dims*(d + numDofs*e)` is the
by-vdim-ordered nodal coordinate of that global dof. -/
theorem c4_gather_resolves_global_dofs [Field α] (maps : DofQuadMaps α)
    (s : KState α) (gf : GridFunction α) (e d v : ℕ)
    (hn : s.mesh.nodes = some gf) (he : e < gf.elements)
    (hd : d < gf.numDofs) (hv : v < gf.dims) :
    (kernelsGeometryGet maps s).geom.eMap (d + gf.numDofs * e)
        = gf.elementMap (d + gf.numDofs * e)
    ∧ (kernelsGeometryGet maps s).geom.meshNodes
          (v + gf.dims * (d + gf.numDofs * e))
        = (if gf.orderedByNODES then
              reorderByVDimData gf.ndofs gf.vdim gf.data
            else gf.data)
            (v + gf.dims * gf.elementMap (d + gf.numDofs * e)) := by
  have hr : resolveNodes s.mesh = gf := resolveNodes_some s.mesh gf hn
  rw [kernelsGeometryGet_geom, computeKernelsGeometry, hr]
  refine ⟨rfl, ?_⟩
  show gatherMeshNodes gf.dims gf.elementMap _ _ = _
  have h1 : (v + gf.dims * (d + gf.numDofs * e)) % gf.dims = v := by
    rw [Nat.add_mul_mod_self_left, Nat.mod_eq_of_lt hv]
  have h2 : (v + gf.dims * (d + gf.numDofs * e)) / gf.dims = d + gf.numDofs * e := by
    rw [Nat.add_mul_div_left _ _ (by omega : 0 < gf.dims),
      Nat.div_eq_of_lt hv, Nat.zero_add]
  simp only [gatherMeshNodes, h1, h2]
  cases gf.orderedByNODES <;> rfl

/-- Witness for C4 at the concrete sample state (element 1, dof 1,
component 1). -/
theorem c4_witness :
    (kernelsGeometryGet sampleMaps sampleState).geom.eMap (1 + sampleGF.numDofs * 1)
        = sampleGF.elementMap (1 + sampleGF.numDofs * 1)
    ∧ (kernelsGeometryGet sampleMaps sampleState).geom.meshNodes
          (1 + sampleGF.dims * (1 + sampleGF.numDofs * 1))
        = (if sampleGF.orderedByNODES then
              reorderByVDimData sampleGF.ndofs sampleGF.vdim sampleGF.data
            else sampleGF.data)
            (1 + sampleGF.dims * sampleGF.elementMap (1 + sampleGF.numDofs * 1)) :=
  c4_gather_resolves_global_dofs sampleMaps sampleState sampleGF 1 1 1 rfl
    (by decide) (by decide) (by decide)

/-- Claim C7: when the mesh has no coordinate grid function, the
initializing-mode `Get` does not fail: it upgrades the mesh with
persistent order-1 node storage in by-vdim ordering and computes the
geometric factors from those nodes. -/
theorem c7_curvature_upgrade_on_nodeless_mesh [Field α] (maps : DofQuadMaps α)
    (s : KState α) (hn : s.mesh.nodes = none) :
    (kernelsGeometryGet maps s).state.mesh.nodes = some (setCurvature1 s.mesh)
    ∧ (setCurvature1 s.mesh).orderedByNODES = false
    ∧ (kernelsGeometryGet maps s).geom
        = computeKernelsGeometry maps (setCurvature1 s.mesh) := by
  have hr : resolveNodes s.mesh = setCurvature1 s.mesh := resolveNodes_none s.mesh hn
  refine ⟨?_, rfl, ?_⟩
  · rw [kernelsGeometryGet_state_mesh_nodes, hr]
  · rw [kernelsGeometryGet_geom, hr]

/-- A sample state whose mesh has no nodal grid function. -/
def sampleStateNodeless : KState ℚ where
  geom := none
  recordedSeq := none
  mesh := { nodes := none, sequence := 0, linearNodes := sampleGF }

/-- Witness for C7 at the concrete nodeless sample state. -/
theorem c7_witness :
    (kernelsGeometryGet sampleMaps sampleStateNodeless).state.mesh.nodes
        = some (setCurvature1 sampleStateNodeless.mesh)
    ∧ (setCurvature1 sampleStateNodeless.mesh).orderedByNODES = false
    ∧ (kernelsGeometryGet sampleMaps sampleStateNodeless).geom
        = computeKernelsGeometry sampleMaps (setCurvature1 sampleStateNodeless.mesh) :=
  c7_curvature_upgrade_on_nodeless_mesh sampleMaps sampleStateNodeless rfl

/-- Claim C5: for the mass-type equation, the coefficient written by
`QuadTensorFunc::evalD` at quadrature point `k` of element `e` is
exactly `ip.weight * det(J_ek)`. -/
theorem c5_mass_evalD_weight_times_det [CommRing α] (eq : HostMassEq α)
    (e k : ℕ) (hk : k < eq.nbQuads) :
    (quadTensorFuncEvalD eq e).getD k 0
      = (eq.intPoint k).weight * detN eq.dim (meshJacFullGet eq.jac e k) := by
  simp [quadTensorFuncEvalD, hostMassEqEvalD, List.getD_eq_getElem?_getD,
    List.getElem?_map, List.getElem?_range, hk]

/-- A sample mass equation over `ℚ`: identity Jacobians, weight 1/4. -/
def sampleMassEq : HostMassEq ℚ where
  dim := 2
  nbQuads := 4
  intPoint := fun _ => { weight := 1 / 4 }
  jac := fun i j _ _ => if i = j then 1 else 0

/-- Witness for C5 at the sample mass equation, quadrature point 1. -/
theorem c5_witness :
    (quadTensorFuncEvalD sampleMassEq 0).getD 1 0
      = (sampleMassEq.intPoint 1).weight
          * detN sampleMassEq.dim (meshJacFullGet sampleMassEq.jac 0 1) :=
  c5_mass_evalD_weight_times_det sampleMassEq 0 1 (by decide)

/-- Claim C6: for every computed set of geometric factors with
`dim ∈ {1,2,3}` and a nonzero determinant at `(e,k)`: the stored inverse
is the pointwise matrix inverse of the stored Jacobian (their product is
the identity — exactly, in ideal arithmetic), the stored determinant is
the determinant of the stored Jacobian, and the determinant of the
stored inverse is the reciprocal of the stored determinant. -/
theorem c6_determinant_inverse_invariants [Field α] (dims numDofs : ℕ)
    (dofToQuadD : ℕ → ℕ → ℕ → α) (meshNodes : ℕ → α) (e k i j : ℕ)
    (hd : dims = 1 ∨ dims = 2 ∨ dims = 3) (hi : i < dims) (hj : j < dims)
    (hdet : (rIniGeom dims numDofs dofToQuadD meshNodes).2.2 k e ≠ 0) :
    (∑ l ∈ Finset.range dims,
        (rIniGeom dims numDofs dofToQuadD meshNodes).1 i l k e
          * (rIniGeom dims numDofs dofToQuadD meshNodes).2.1 l j k e)
        = (if i = j then 1 else 0)
    ∧ (rIniGeom dims numDofs dofToQuadD meshNodes).2.2 k e
        = detN dims
            (fun a b => (rIniGeom dims numDofs dofToQuadD meshNodes).1 a b k e)
    ∧ detN dims
          (fun a b => (rIniGeom dims numDofs dofToQuadD meshNodes).2.1 a b k e)
        = ((rIniGeom dims numDofs dofToQuadD meshNodes).2.2 k e)⁻¹ := by
  refine ⟨?_, rfl, ?_⟩
  · exact mul_invN_eq_id dims
      (fun a b => rIniGeomJ dims numDofs dofToQuadD meshNodes a b k e)
      hd hdet i j hi hj
  · exact detN_invN dims
      (fun a b => rIniGeomJ dims numDofs dofToQuadD meshNodes a b k e)
      hd hdet

/-- Sample nodal coordinates making the (0,0)-point Jacobian the
identity: dof 0 sits at (1,0) and dof 1 at (0,1). -/
def sampleNodes2 : ℕ → ℚ :=
  fun m => if m = 0 then 1 else if m = 3 then 1 else 0

/-- Sample gradient table: direction `j` of dof `dof` is 1 iff
`j = dof`. -/
def sampleMaps2 : DofQuadMaps ℚ where
  dofToQuadD := fun j dof _ => if j = dof then 1 else 0

/-- Witness for C6 at a concrete 2-D geometry with unit determinant
(entry (0,1) of the product, which must vanish). -/
theorem c6_witness :
    (∑ l ∈ Finset.range 2,
        (rIniGeom 2 2 sampleMaps2.dofToQuadD sampleNodes2).1 0 l 0 0
          * (rIniGeom 2 2 sampleMaps2.dofToQuadD sampleNodes2).2.1 l 1 0 0)
        = (if 0 = 1 then 1 else 0)
    ∧ (rIniGeom 2 2 sampleMaps2.dofToQuadD sampleNodes2).2.2 0 0
        = detN 2
            (fun a b => (rIniGeom 2 2 sampleMaps2.dofToQuadD sampleNodes2).1 a b 0 0)
    ∧ detN 2
          (fun a b => (rIniGeom 2 2 sampleMaps2.dofToQuadD sampleNodes2).2.1 a b 0 0)
        = ((rIniGeom 2 2 sampleMaps2.dofToQuadD sampleNodes2).2.2 0 0)⁻¹ :=
  c6_determinant_inverse_invariants 2 2 sampleMaps2.dofToQuadD sampleNodes2 0 0 0 1
    (Or.inr (Or.inl rfl)) (by decide) (by decide)
    (by norm_num [rIniGeom, rIniGeomJ, detN, sampleMaps2, sampleNodes2,
      Finset.sum_range_succ])

/-- A sample cached geometry over `ℚ`. -/
def sampleGeom : KernelsGeometry ℚ where
  meshNodes := fun _ => 0
  eMap := fun lid => lid + 2
  J := fun _ _ _ _ => 0
  invJ := fun _ _ _ _ => 0
  detJ := fun _ _ => 0

/-- Claim C9: vector-mode `Get` has the unstated precondition that an
initializing-mode `Get` has already populated the process-wide cache —
with a NULL cache pointer it dereferences NULL (modelled as `none`);
with a warm cache it performs no staleness check (its result is
independent of the recorded sequence) and no allocation (it reads `eMap`
from the cached object unchanged). -/
theorem c9_vector_mode_requires_initialized_cache [Field α]
    (maps : DofQuadMaps α) (Sx : ℕ → α) (mesh : MeshState α)
    (gf : GridFunction α) (g : KernelsGeometry α) (rs rs2 : Option ℕ)
    (hn : mesh.nodes = some gf) :
    kernelsGeometryGetVec maps Sx { geom := none, recordedSeq := rs, mesh := mesh }
        = none
    ∧ kernelsGeometryGetVec maps Sx
          { geom := some g, recordedSeq := rs, mesh := mesh }
        = kernelsGeometryGetVec maps Sx
          { geom := some g, recordedSeq := rs2, mesh := mesh }
    ∧ (kernelsGeometryGetVec maps Sx
          { geom := some g, recordedSeq := rs, mesh := mesh }).map
            KernelsGeometry.eMap
        = some g.eMap := by
  refine ⟨?_, rfl, ?_⟩
  · simp [kernelsGeometryGetVec, hn]
  · simp [kernelsGeometryGetVec, hn]

/-- Witness for C9 at a cold and a warm concrete state. -/
theorem c9_witness :
    kernelsGeometryGetVec sampleMaps (fun n => (n : ℚ))
        { geom := none, recordedSeq := none, mesh := sampleMesh } = none
    ∧ kernelsGeometryGetVec sampleMaps (fun n => (n : ℚ))
          { geom := some sampleGeom, recordedSeq := none, mesh := sampleMesh }
        = kernelsGeometryGetVec sampleMaps (fun n => (n : ℚ))
          { geom := some sampleGeom, recordedSeq := some 7, mesh := sampleMesh }
    ∧ (kernelsGeometryGetVec sampleMaps (fun n => (n : ℚ))
          { geom := some sampleGeom, recordedSeq := none, mesh := sampleMesh }).map
            KernelsGeometry.eMap
        = some sampleGeom.eMap :=
  c9_vector_mode_requires_initialized_cache sampleMaps (fun n => (n : ℚ))
    sampleMesh sampleGF sampleGeom none (some 7) rfl

/-- Claim C10: in the linear time-constant `MeshJac` specialization the
stored tensor keeps one `dim × dim` matrix per element, taken from
quadrature point 0 of the full per-quadrature-point computation, and the
accessor ignores the quadrature index: `getJac(e, k)` is the same matrix
for all `k`. -/
theorem c10_linear_meshjac_uses_quadpoint_zero [Zero α]
    (J : ℕ → ℕ → ℕ → ℕ → α) (nbElts e k k2 : ℕ) (he : e < nbElts) :
    meshJacLinearGet (meshJacLinearJ J nbElts) e k = meshJacFullGet J e 0
    ∧ meshJacLinearGet (meshJacLinearJ J nbElts) e k
        = meshJacLinearGet (meshJacLinearJ J nbElts) e k2 := by
  refine ⟨?_, rfl⟩
  simp [meshJacLinearGet, meshJacLinearJ, List.getD_eq_getElem?_getD,
    List.getElem?_map, List.getElem?_range, he]

/-- Witness for C10 at a concrete Jacobian tensor, element 1, quadrature
indices 3 and 7. -/
theorem c10_witness :
    meshJacLinearGet
        (meshJacLinearJ (fun i j k e => ((i + 10 * j + 100 * k + 1000 * e : ℕ) : ℚ)) 2)
        1 3
      = meshJacFullGet (fun i j k e => ((i + 10 * j + 100 * k + 1000 * e : ℕ) : ℚ)) 1 0
    ∧ meshJacLinearGet
        (meshJacLinearJ (fun i j k e => ((i + 10 * j + 100 * k + 1000 * e : ℕ) : ℚ)) 2)
        1 3
      = meshJacLinearGet
          (meshJacLinearJ (fun i j k e => ((i + 10 * j + 100 * k + 1000 * e : ℕ) : ℚ)) 2)
          1 7 :=
  c10_linear_meshjac_uses_quadpoint_zero
    (fun i j k e => ((i + 10 * j + 100 * k + 1000 * e : ℕ) : ℚ)) 2 1 3 7 (by decide)

/-- Claim C8: on tensor-product elements — quadrilaterals and
hexahedra — the tensor-product fast-path contraction and the general
dense contraction produce the same `Mult` and `MultAdd` outputs for
every 1-D basis, coefficient tensor and input vector (exactly, in ideal
arithmetic): the 2-D fast path (two 1-D contractions) matches the dense
contraction over the separable quad basis, and the 3-D fast path (three
1-D contractions) matches the dense contraction over the separable hex
basis.  In particular, for a mass-type operator on a single
quadrilateral with constant coefficient 2.0, a 2×2 Gauss–Legendre rule
(weights 1/4 on the reference square, hence `D = 2 · 1/4 · det I = 1/2`
at each point) and the order-1 bilinear basis evaluated at the Gauss
points `(1 ∓ 1/√3)/2`, both paths applied to the all-ones vector agree
within `1e-12` absolute tolerance. -/
theorem c8_tensor_path_matches_general_path :
    (∀ (nd nq : ℕ) (B1 : ℕ → ℕ → ℝ) (D x y : ℕ → ℝ) (idx : ℕ),
        hostDomainKernelMultTensor nd nq B1 D x idx
            = hostDomainKernelMultGeneral (nd * nd) (nq * nq)
                (sepBasis nd nq B1) D x idx
        ∧ hostDomainKernelMultAddTensor nd nq B1 D x y idx
            = hostDomainKernelMultAddGeneral (nd * nd) (nq * nq)
                (sepBasis nd nq B1) D x y idx)
    ∧ (∀ (nd nq : ℕ) (B1 : ℕ → ℕ → ℝ) (D x y : ℕ → ℝ) (idx : ℕ),
        hostDomainKernelMultTensor3D nd nq B1 D x idx
            = hostDomainKernelMultGeneral (nd * (nd * nd)) (nq * (nq * nq))
                (sepBasis3D nd nq B1) D x idx
        ∧ hostDomainKernelMultAddTensor3D nd nq B1 D x y idx
            = hostDomainKernelMultAddGeneral (nd * (nd * nd)) (nq * (nq * nq))
                (sepBasis3D nd nq B1) D x y idx)
    ∧ ∀ idx : ℕ,
        |hostDomainKernelMultTensor 2 2
            (fun k i =>
              let t : ℝ :=
                if k = 0 then (1 - (Real.sqrt 3)⁻¹) / 2
                else (1 + (Real.sqrt 3)⁻¹) / 2
              if i = 0 then 1 - t else t)
            (fun _ => 2 * (1 / 4) * 1) (fun _ => 1) idx
          - hostDomainKernelMultGeneral (2 * 2) (2 * 2)
              (sepBasis 2 2
                (fun k i =>
                  let t : ℝ :=
                    if k = 0 then (1 - (Real.sqrt 3)⁻¹) / 2
                    else (1 + (Real.sqrt 3)⁻¹) / 2
                  if i = 0 then 1 - t else t))
              (fun _ => 2 * (1 / 4) * 1) (fun _ => 1) idx|
          ≤ 1 / 10 ^ 12 := by
  refine ⟨?_, ?_, ?_⟩
  · intro nd nq B1 D x y idx
    refine ⟨multTensor_eq_multGeneral nd nq B1 D x idx, ?_⟩
    simp only [hostDomainKernelMultAddTensor, hostDomainKernelMultAddGeneral,
      multTensor_eq_multGeneral]
  · intro nd nq B1 D x y idx
    refine ⟨multTensor3D_eq_multGeneral nd nq B1 D x idx, ?_⟩
    simp only [hostDomainKernelMultAddTensor3D, hostDomainKernelMultAddGeneral,
      multTensor3D_eq_multGeneral]
  · intro idx
    rw [multTensor_eq_multGeneral, sub_self, abs_zero]
    norm_num

end MfemKernels
